import Mathlib

/-!
HoopsAI highlight-export pipeline: a verification development.

Shallow embedding of the HoopsAI repository's export pipeline
(`src/App.tsx`: `handleExportVideo`, `playNextClip`, `checkTime`,
`handleAnalyze`, `handleGenerateCommentary`;
`src/services/gemini.ts`: `generateAudioCommentary`;
`src/services/audioUtils.ts`: `decodeAudioData`).

Times are JS numbers compared only with `>=`/subtraction-as-comparator, so
they are embedded as rationals.  The browser's event loop is embedded as an
explicit schedule of `timeupdate` observations fed to the sequencer.
-/

namespace HoopsAI

/-- A detected highlight segment (the `startTime`/`endTime` fields of a
`VideoEvent` that the sequencer reads). -/
structure Segment where
  startTime : ℚ
  endTime : ℚ
deriving DecidableEq, Repr

/-- The playback surface (`videoRef.current`): current position, mute flag
and play/pause state. -/
structure Surface where
  time : ℚ
  muted : Bool
  paused : Bool
deriving DecidableEq, Repr

/-- Observable actions the sequencer performs on the playback surface and
recorder, in program order. -/
inductive Act where
  /-- `video.currentTime = evt.startTime` -/
  | setTime (t : ℚ)
  /-- `await video.play()` resolved -/
  | playResume
  /-- `await video.play()` rejected; caught and logged by `playNextClip` -/
  | playFailed
  /-- `video.addEventListener('timeupdate', checkTime)` for segment `i` -/
  | attach (i : Nat)
  /-- `video.pause()` inside `checkTime` -/
  | pauseSurface
  /-- `video.removeEventListener('timeupdate', checkTime)` for segment `i` -/
  | detach (i : Nat)
  /-- `mediaRecorder.stop()` -/
  | stopRec
deriving DecidableEq, Repr

/-- `checkTime` waiting loop: each element of `ts` is one `timeupdate`
observation (the surface's new `currentTime`).  Returns the surface after the
consumed updates together with `some remaining` once
`video.currentTime >= evt.endTime` first holds, or `none` if the updates run
out without the end condition ever firing (the handler stays attached and the
sequencer stalls). -/
def waitCross (endT : ℚ) : Surface → List ℚ → Surface × Option (List ℚ)
  | s, [] => (s, none)
  | s, t :: ts =>
    let s1 : Surface := { s with time := t }
    if endT ≤ s1.time then (s1, some ts) else waitCross endT s1 ts

/-- `await video.play()`: on resolve the surface is playing; on reject the
error is caught and logged (`console.error("Autoplay failed during export")`)
and the surface state is unchanged. -/
def playStep (ok : Bool) (s : Surface) : Surface × Act :=
  if ok then ({ s with paused := false }, Act.playResume) else (s, Act.playFailed)

/-- Result of running the segment sequencer: final surface, the ordered list
of actions performed, and whether `mediaRecorder.stop()` was called. -/
structure SeqResult where
  surface : Surface
  trace : List Act
  recorderStopped : Bool
deriving DecidableEq, Repr

/-- `playNextClip` (src/App.tsx lines 258-284): walk the remaining segments
from absolute index `i`.  For each segment: set the position to its
`startTime`, request resume (`playOk i` tells whether `video.play()`
resolves), attach `checkTime`, consume `timeupdate` observations until the end
condition fires, then pause, detach, and recurse; once past the last segment,
stop the recorder. -/
def playNextClip (playOk : Nat → Bool) :
    List Segment → Nat → Surface → List ℚ → SeqResult
  | [], _, s, _ => ⟨s, [Act.stopRec], true⟩
  | evt :: rest, i, s, ts =>
    let s1 : Surface := { s with time := evt.startTime }
    let sp := playStep (playOk i) s1
    match waitCross evt.endTime sp.1 ts with
    | (s3, none) =>
      ⟨s3, [Act.setTime evt.startTime, sp.2, Act.attach i], false⟩
    | (s3, some ts2) =>
      let s4 : Surface := { s3 with paused := true }
      let r := playNextClip playOk rest (i + 1) s4 ts2
      ⟨r.surface,
        Act.setTime evt.startTime :: sp.2 :: Act.attach i ::
          Act.pauseSurface :: Act.detach i :: r.trace,
        r.recorderStopped⟩

/-- The indices whose `checkTime` handler got attached, in trace order: the
segments the sequencer visited. -/
def attachIdxs (l : List Act) : List Nat :=
  l.filterMap fun a => match a with | Act.attach i => some i | _ => none

/-- How many times `mediaRecorder.stop()` appears in a trace. -/
def stopCount : List Act → Nat
  | [] => 0
  | Act.stopRec :: rest => stopCount rest + 1
  | _ :: rest => stopCount rest

/-- The actions one fully-played segment at index `i` contributes. -/
def segTrace (playOk : Nat → Bool) (i : Nat) (evt : Segment) : List Act :=
  [Act.setTime evt.startTime,
   (if playOk i then Act.playResume else Act.playFailed),
   Act.attach i, Act.pauseSurface, Act.detach i]

/-- The full action trace of a run of the sequencer in which every segment's
end condition eventually fires. -/
def expTrace (playOk : Nat → Bool) : Nat → List Segment → List Act
  | _, [] => [Act.stopRec]
  | i, evt :: rest => segTrace playOk i evt ++ expTrace playOk (i + 1) rest

/-- A fair delivery of `timeupdate` observations for one segment: some
observations strictly before the end condition, then one at/after
`endTime`. -/
def fairSeg (evt : Segment) (pr : List ℚ × ℚ) : Prop :=
  (∀ t ∈ pr.1, ¬ evt.endTime ≤ t) ∧ evt.endTime ≤ pr.2

/-- Flatten a per-segment schedule into the single stream of `timeupdate`
observations the sequencer consumes. -/
def schedTimes (sched : List (List ℚ × ℚ)) : List ℚ :=
  (sched.map fun pr => pr.1 ++ [pr.2]).flatten

/-! ## Export controller (`handleExportVideo`, src/App.tsx lines 197-293) -/

/-- The application state `handleExportVideo` reads and writes:
`videoRef.current` (presence), `events`, `generatedAudioBuffer` (presence),
`audioContextRef.current` (presence), the `isExporting` flag, and the
playback surface. -/
structure AppModel where
  hasVideo : Bool
  events : List Segment
  hasAudioBuffer : Bool
  hasAudioCtx : Bool
  isExporting : Bool
  surface : Surface
deriving DecidableEq, Repr

/-- Environment of one export attempt: which browser operations succeed.
`captureOk` — `captureStream`/`mozCaptureStream` exists and returns a stream;
`recorderCtorOk` — `new MediaRecorder(...)` does not throw;
`recorderStartOk` — `mediaRecorder.start()` does not throw;
`audioStartOk` — `audioSource.start(0)` does not throw;
`playOk i` — `video.play()` resolves for segment `i`;
`sched` — the `timeupdate` observations delivered while sequencing. -/
structure ExportEnv where
  captureOk : Bool
  recorderCtorOk : Bool
  recorderStartOk : Bool
  audioStartOk : Bool
  playOk : Nat → Bool
  sched : List ℚ

/-- How one invocation of the export ended. -/
inductive ExportOutcome where
  /-- The button was disabled, so the handler never ran. -/
  | notInvoked
  /-- Precondition `alert` shown, handler returned before `setIsExporting`. -/
  | preconditionRejected
  /-- The sequencer finished, the recorder stopped and `onstop` ran. -/
  | completed
  /-- An exception reached the `catch` block. -/
  | failedCaught
  /-- The sequencer is stuck waiting for an end condition that never fires. -/
  | stalled
deriving DecidableEq, Repr

/-- Result of one export invocation: the application state afterwards plus
the observable facts about the attempt. -/
structure ExportResult where
  state : AppModel
  outcome : ExportOutcome
  streamCaptured : Bool
  sessionConstructed : Bool
  recorderStarted : Bool
  recorderStopped : Bool
  downloaded : Bool
  trace : List Act
deriving Repr

/-- `handleExportVideo` (src/App.tsx lines 197-293).

Mirrors the source order: precondition guard with `alert`; snapshot
`originalTime`/`originalMuted`; `try { captureStream; audio graph;
new MediaRecorder; handlers; video.muted = true; mediaRecorder.start();
audioSource.start(0); await playNextClip(0) }`.  The `catch` block sets
`isExporting` to `false` and restores `currentTime` and `muted` (it does not
pause and does not stop the recorder).  `mediaRecorder.onstop` (lines
234-249) downloads the blob, restores `currentTime` and `muted`, pauses, and
clears `isExporting`. -/
def handleExportVideo (env : ExportEnv) (m : AppModel) : ExportResult :=
  if !m.hasVideo || m.events.isEmpty || !m.hasAudioBuffer || !m.hasAudioCtx then
    { state := m, outcome := ExportOutcome.preconditionRejected,
      streamCaptured := false, sessionConstructed := false,
      recorderStarted := false, recorderStopped := false,
      downloaded := false, trace := [] }
  else
    let origTime := m.surface.time
    let origMuted := m.surface.muted
    let mExp : AppModel := { m with isExporting := true }
    if !env.captureOk then
      { state := { mExp with
          isExporting := false
          surface := { mExp.surface with time := origTime, muted := origMuted } },
        outcome := ExportOutcome.failedCaught,
        streamCaptured := false, sessionConstructed := false,
        recorderStarted := false, recorderStopped := false,
        downloaded := false, trace := [] }
    else if !env.recorderCtorOk then
      { state := { mExp with
          isExporting := false
          surface := { mExp.surface with time := origTime, muted := origMuted } },
        outcome := ExportOutcome.failedCaught,
        streamCaptured := true, sessionConstructed := false,
        recorderStarted := false, recorderStopped := false,
        downloaded := false, trace := [] }
    else
      let sMuted : Surface := { mExp.surface with muted := true }
      if !env.recorderStartOk then
        { state := { mExp with
            isExporting := false
            surface := { sMuted with time := origTime, muted := origMuted } },
          outcome := ExportOutcome.failedCaught,
          streamCaptured := true, sessionConstructed := true,
          recorderStarted := false, recorderStopped := false,
          downloaded := false, trace := [] }
      else if !env.audioStartOk then
        { state := { mExp with
            isExporting := false
            surface := { sMuted with time := origTime, muted := origMuted } },
          outcome := ExportOutcome.failedCaught,
          streamCaptured := true, sessionConstructed := true,
          recorderStarted := true, recorderStopped := false,
          downloaded := false, trace := [] }
      else
        let r := playNextClip env.playOk m.events 0 sMuted env.sched
        if r.recorderStopped then
          { state := { mExp with
              isExporting := false
              surface := { time := origTime, muted := origMuted, paused := true } },
            outcome := ExportOutcome.completed,
            streamCaptured := true, sessionConstructed := true,
            recorderStarted := true, recorderStopped := true,
            downloaded := true, trace := r.trace }
        else
          { state := { mExp with surface := r.surface },
            outcome := ExportOutcome.stalled,
            streamCaptured := true, sessionConstructed := true,
            recorderStarted := true, recorderStopped := false,
            downloaded := false, trace := r.trace }

/-- The export button's `disabled` condition
(src/App.tsx line 349: `!generatedAudioBuffer || isExporting`). -/
def exportButtonDisabled (m : AppModel) : Bool :=
  !m.hasAudioBuffer || m.isExporting

/-- Result of a click that never reaches the handler. -/
def notInvokedResult (m : AppModel) : ExportResult :=
  { state := m, outcome := ExportOutcome.notInvoked,
    streamCaptured := false, sessionConstructed := false,
    recorderStarted := false, recorderStopped := false,
    downloaded := false, trace := [] }

/-- Clicking the export button: a disabled button does nothing, an enabled
one runs `handleExportVideo`. -/
def clickExport (env : ExportEnv) (m : AppModel) : ExportResult :=
  if exportButtonDisabled m then notInvokedResult m else handleExportVideo env m

/-! ## Interleaved session-counting system for the mutual-exclusion claim

`handleExportVideo` is asynchronous: the `Exporting` window opens when the
guard passes (`setIsExporting(true)`, one capture-and-mix session
constructed) and closes when `onstop` or `catch` clears the flag.  Clicks and
completions interleave on the single browser event loop; the model below
replays any such interleaving. -/

structure SysState where
  hasAudioBuffer : Bool
  isExporting : Bool
  /-- The in-flight attempt has reached `mediaRecorder.start()`. -/
  curStarted : Bool
  /-- Recorders currently recording: started and never stopped.  The code
  stops a recorder only in the sequencer's final `mediaRecorder.stop()`;
  the `catch` block stops nothing. -/
  liveRecorders : Nat
  /-- Recorders leaked by caught post-start failures: their attempt
  concluded (`catch` cleared the flag) but they are still recording. -/
  leaked : Nat
deriving DecidableEq, Repr

/-- Events on the event loop: a click of the export button (`pre` records
whether the handler's preconditions hold and session construction succeeds;
`started` whether the attempt reaches `mediaRecorder.start()`); a clean
conclusion (`onstop`, which only fires after `mediaRecorder.stop()`); or a
caught failure (`catch`, which clears `isExporting` but stops neither the
recorder nor the stream — see `export_restores_surface`). -/
inductive SysEvt where
  | clickStart (pre started : Bool)
  | finishOk
  | finishCaught
deriving DecidableEq, Repr

def sysStep (s : SysState) : SysEvt → SysState
  | SysEvt.clickStart pre started =>
    if !s.hasAudioBuffer || s.isExporting then s
    else if pre then
      { s with
        isExporting := true
        curStarted := started
        liveRecorders := s.liveRecorders + (if started then 1 else 0) }
    else s
  | SysEvt.finishOk =>
    if s.isExporting && s.curStarted then
      { s with
        isExporting := false
        curStarted := false
        liveRecorders := s.liveRecorders - 1 }
    else s
  | SysEvt.finishCaught =>
    if s.isExporting then
      { s with
        isExporting := false
        curStarted := false
        leaked := s.leaked + (if s.curStarted then 1 else 0) }
    else s

def runSys (s : SysState) (evts : List SysEvt) : SysState :=
  evts.foldl sysStep s

def sysInit (hasBuf : Bool) : SysState :=
  { hasAudioBuffer := hasBuf, isExporting := false, curStarted := false,
    liveRecorders := 0, leaked := 0 }

/-- The session-count invariant the code actually maintains: the recorders
recording right now are the in-flight started attempt (at most one, thanks
to the `disabled` guard) plus every recorder leaked by a caught post-start
failure.  Only when nothing has leaked is there at most one live session. -/
def sessionInv (s : SysState) : Prop :=
  s.liveRecorders = (if s.isExporting && s.curStarted then 1 else 0) + s.leaked

/-! ## Speech-synthesis boundary (`generateAudioCommentary`,
src/services/gemini.ts lines 93-115, and its caller
`handleGenerateCommentary`, src/App.tsx lines 137-174) -/

/-- What the TTS request produces before `generateAudioCommentary`'s own
`try`/`catch` acts on it. -/
inductive TtsApiOutcome where
  /-- The response carries `inlineData.data` (base64 audio bytes). -/
  | success (b : String)
  /-- The request succeeds but no inline data is present: the optional
  chain `response.candidates?.[0]?...?.data` yields `undefined`. -/
  | noData
  /-- The request throws; the `catch` logs `"TTS Error:"` and returns
  `undefined`. -/
  | apiError
deriving DecidableEq, Repr

/-- `generateAudioCommentary`: `Promise<string | undefined>`.  Both the
no-inline-data case and the thrown-error case reach the caller as
`undefined`. -/
def generateAudioCommentary : TtsApiOutcome → Option String
  | TtsApiOutcome.success b => some b
  | TtsApiOutcome.noData => none
  | TtsApiOutcome.apiError => none

/-- The caller-visible result of `handleGenerateCommentary`. -/
inductive CommentaryOutcome where
  /-- `events.length === 0`: early return, nothing happens. -/
  | noEvents
  /-- Audio decoded, stored and played (`'解说生成完毕，正在播放...'`). -/
  | played
  /-- `audioBase64` was `undefined`: the soft message
  `'暂时无法生成音频。'`. -/
  | softNoAudio
  /-- The `catch` block ran: the hard message `'生成解说时出错。'`. -/
  | hardError
deriving DecidableEq, Repr

/-- `handleGenerateCommentary`: guard on `events`, generate the script
(`scriptOk` records whether `generateCommentaryScript` resolved), then
dispatch on the TTS result.  All of this sits in one `try`/`catch`, so when
the TTS result is present, the remaining chain — lazy `AudioContext`
creation, `decode` (`atob`), `decodeAudioData` (`ctx.createBuffer`, which
throws for zero frames, e.g. an empty payload), and `playAudioBuffer` — can
still throw into the same `catch` and produce the hard message; `decodeOk`
records whether that post-TTS chain succeeds. -/
def handleGenerateCommentary (hasEvents scriptOk : Bool)
    (tts : TtsApiOutcome) (decodeOk : Bool) : CommentaryOutcome :=
  if !hasEvents then CommentaryOutcome.noEvents
  else if !scriptOk then CommentaryOutcome.hardError
  else
    match generateAudioCommentary tts with
    | some _ =>
      if decodeOk then CommentaryOutcome.played else CommentaryOutcome.hardError
    | none => CommentaryOutcome.softNoAudio

/-! ## Event intake (`handleAnalyze`, src/App.tsx lines 95-135) -/

/-- Basketball event categories from `src/types.ts`. -/
inductive EventType where
  | DUNK | THREEPOINT | STEAL | BLOCK | ASSIST | HIGHLIGHT | OTHER
deriving DecidableEq, Repr

/-- A detected event as returned by `analyzeBasketballVideo`, before an id
is assigned. -/
structure RawEvent where
  etype : EventType
  startTime : ℚ
  endTime : ℚ
  description : String
  confidence : ℚ
deriving DecidableEq, Repr

/-- The comparator `(a, b) => a.startTime - b.startTime` sorts ascending by
`startTime`; JS `Array.prototype.sort` is stable (ES2019). -/
def evLe (a b : RawEvent) : Prop := a.startTime ≤ b.startTime

instance : DecidableRel evLe := fun a b =>
  inferInstanceAs (Decidable (a.startTime ≤ b.startTime))

instance : IsTotal RawEvent evLe := ⟨fun a b => le_total a.startTime b.startTime⟩

instance : IsTrans RawEvent evLe := ⟨fun _ _ _ h1 h2 => le_trans h1 h2⟩

/-- A stored event: the detected payload plus the assigned id string. -/
structure VideoEvent extends RawEvent where
  id : String
deriving DecidableEq, Repr

/-- `detectedEvents.sort(...)` followed by
`.map((e, i) => ({ ...e, id: \x7bevt-i\x7d }))` — the stable sort by
`startTime` and the assignment of sequential ids in sorted order
(src/App.tsx lines 107-110). -/
def handleAnalyzeEvents (detected : List RawEvent) : List VideoEvent :=
  let sorted := List.insertionSort evLe detected
  (sorted.zip (List.range sorted.length)).map fun p =>
    { toRawEvent := p.1, id := "evt-" ++ toString p.2 }

/-! ## Audio decoding (`decodeAudioData`, src/services/audioUtils.ts) -/

/-- Concrete segments `[0,2]` and `[5,7]` (spec scenario A). -/
def segsW : List Segment := [⟨0, 2⟩, ⟨5, 7⟩]

/-- A fair schedule for `segsW`: one mid-segment observation then the
end-crossing observation, per segment. -/
def schedW : List (List ℚ × ℚ) := [([1], 2), ([6], 7)]

/-- The export environment in which every `video.play()` call rejects
(autoplay policy), with a fair `timeupdate` schedule for `segsW`. -/
def env_playFail : ExportEnv :=
  { captureOk := true, recorderCtorOk := true, recorderStartOk := true,
    audioStartOk := true, playOk := fun _ => false, sched := [2, 7] }

/-- Application state with two detected segments, ready to export. -/
def m_twoSegs : AppModel :=
  { hasVideo := true, events := [⟨0, 2⟩, ⟨5, 7⟩], hasAudioBuffer := true,
    hasAudioCtx := true, isExporting := false,
    surface := { time := 0, muted := false, paused := true } }

/-- The export environment in which `captureStream` is unavailable
(capability error: constructing the capture stream throws). -/
def env_captureFail : ExportEnv :=
  { captureOk := false, recorderCtorOk := true, recorderStartOk := true,
    audioStartOk := true, playOk := fun _ => true, sched := [] }

/-- Application state with one segment, ready to export, while the user has
the video playing (surface not paused). -/
def m_playing : AppModel :=
  { hasVideo := true, events := [⟨0, 2⟩], hasAudioBuffer := true,
    hasAudioCtx := true, isExporting := false,
    surface := { time := 5, muted := false, paused := false } }

/-- The export environment in which everything up to and including
`mediaRecorder.start()` succeeds but `audioSource.start(0)` throws: the
`catch` runs with the recorder already recording. -/
def env_audioStartFail : ExportEnv :=
  { captureOk := true, recorderCtorOk := true, recorderStartOk := true,
    audioStartOk := false, playOk := fun _ => true, sched := [2] }

/-- A full-capability environment (nothing fails). -/
def env_allOk : ExportEnv :=
  { captureOk := true, recorderCtorOk := true, recorderStartOk := true,
    audioStartOk := true, playOk := fun _ => true, sched := [2, 7] }

/-- Application state with a loaded video and audio but zero detected
events (spec scenario C). -/
def m_noEvents : AppModel :=
  { hasVideo := true, events := [], hasAudioBuffer := true,
    hasAudioCtx := true, isExporting := false,
    surface := { time := 5, muted := false, paused := true } }

/-! ## Lemmas about the sequencer -/

theorem waitCross_fair (endT fin : ℚ) (rest : List ℚ) :
    ∀ (pre : List ℚ) (s : Surface), (∀ t ∈ pre, ¬ endT ≤ t) → endT ≤ fin →
      waitCross endT s (pre ++ fin :: rest) = ({ s with time := fin }, some rest)
  | [], s, _, hfin => by simp [waitCross, hfin]
  | t :: pre, s, hpre, hfin => by
    have ht : ¬ endT ≤ t := hpre t (by simp)
    simp only [List.cons_append, waitCross, if_neg ht]
    exact waitCross_fair endT fin rest pre _ (fun u hu => hpre u (by simp [hu])) hfin

theorem waitCross_stall (endT : ℚ) :
    ∀ (ts : List ℚ) (s : Surface), (∀ t ∈ ts, ¬ endT ≤ t) →
      ∃ s3, waitCross endT s ts = (s3, none)
  | [], s, _ => ⟨s, rfl⟩
  | t :: ts, s, h => by
    simp only [waitCross, if_neg (h t (by simp))]
    exact waitCross_stall endT ts _ (fun u hu => h u (by simp [hu]))

theorem playStep_snd (ok : Bool) (s : Surface) :
    (playStep ok s).2 = if ok then Act.playResume else Act.playFailed := by
  unfold playStep; split <;> rfl

theorem schedTimes_cons (pr : List ℚ × ℚ) (ps : List (List ℚ × ℚ)) :
    schedTimes (pr :: ps) = pr.1 ++ pr.2 :: schedTimes ps := by
  simp [schedTimes]

/-- Under a fair delivery of `timeupdate` observations, `playNextClip`
produces exactly the expected trace and stops the recorder. -/
theorem playNextClip_fair (p : Nat → Bool) :
    ∀ {events : List Segment} {sched : List (List ℚ × ℚ)},
      List.Forall₂ fairSeg events sched → ∀ (i : Nat) (s : Surface),
      (playNextClip p events i s (schedTimes sched)).trace = expTrace p i events
      ∧ (playNextClip p events i s (schedTimes sched)).recorderStopped = true := by
  intro events sched hfair
  induction hfair with
  | nil => intro i s; exact ⟨rfl, rfl⟩
  | @cons evt pr es ps hseg _ ih =>
    intro i s
    rw [schedTimes_cons]
    simp only [playNextClip]
    rw [waitCross_fair evt.endTime pr.2 (schedTimes ps) pr.1 _ hseg.1 hseg.2]
    obtain ⟨ht, hs⟩ := ih (i + 1) _
    refine ⟨?_, by simpa using hs⟩
    simp only [ht, expTrace, segTrace, playStep_snd]
    rfl

theorem attachIdxs_append (l l' : List Act) :
    attachIdxs (l ++ l') = attachIdxs l ++ attachIdxs l' := by
  simp [attachIdxs]

theorem attachIdxs_segTrace (p : Nat → Bool) (i : Nat) (evt : Segment) :
    attachIdxs (segTrace p i evt) = [i] := by
  unfold segTrace attachIdxs
  split <;> rfl

theorem attachIdxs_expTrace (p : Nat → Bool) :
    ∀ (es : List Segment) (i : Nat),
      attachIdxs (expTrace p i es) = List.range' i es.length
  | [], _ => rfl
  | evt :: es, i => by
    simp only [expTrace, attachIdxs_append, attachIdxs_segTrace,
      attachIdxs_expTrace p es (i + 1), List.length_cons, List.range']
    rfl

theorem stopCount_append (l l' : List Act) :
    stopCount (l ++ l') = stopCount l + stopCount l' := by
  induction l with
  | nil => simp [stopCount]
  | cons a l ih =>
    cases a <;> (simp [stopCount, ih]; try omega)

theorem stopCount_segTrace (p : Nat → Bool) (i : Nat) (evt : Segment) :
    stopCount (segTrace p i evt) = 0 := by
  unfold segTrace
  split <;> rfl

/-- The full fair trace is the stop-free visiting prefix followed by the
single `mediaRecorder.stop()`. -/
theorem expTrace_concat (p : Nat → Bool) :
    ∀ (es : List Segment) (i : Nat),
      ∃ pre, expTrace p i es = pre ++ [Act.stopRec] ∧ stopCount pre = 0
  | [], _ => ⟨[], rfl, rfl⟩
  | evt :: es, i => by
    obtain ⟨pre, hpre, hc⟩ := expTrace_concat p es (i + 1)
    refine ⟨segTrace p i evt ++ pre, ?_, ?_⟩
    · simp [expTrace, hpre]
    · simp [stopCount_append, hc, stopCount_segTrace]

theorem stopCount_expTrace (p : Nat → Bool) (es : List Segment) (i : Nat) :
    stopCount (expTrace p i es) = 1 := by
  obtain ⟨pre, hpre, hc⟩ := expTrace_concat p es i
  simp [hpre, stopCount_append, hc, stopCount]

theorem getLast?_expTrace (p : Nat → Bool) (es : List Segment) (i : Nat) :
    (expTrace p i es).getLast? = some Act.stopRec := by
  obtain ⟨pre, hpre, _⟩ := expTrace_concat p es i
  simp [hpre]

theorem playFailed_mem_expTrace (p : Nat → Bool) :
    ∀ (es : List Segment) (i j : Nat), j < es.length → p (i + j) = false →
      Act.playFailed ∈ expTrace p i es
  | [], _, j, hj, _ => absurd hj (by simp)
  | evt :: es, i, 0, _, hfail => by
    simp only [Nat.add_zero] at hfail
    simp [expTrace, segTrace, hfail]
  | evt :: es, i, j + 1, hj, hfail => by
    have hmem : Act.playFailed ∈ expTrace p (i + 1) es :=
      playFailed_mem_expTrace p es (i + 1) j (by simpa using hj)
        (by rw [← hfail]; congr 1; omega)
    simp [expTrace, hmem]

/-! ## Claim C1 -/

/-- C1: for every non-empty segment list sorted ascending by `startTime`,
the sequencer started at index 0 (under fair delivery of `timeupdate`
observations) visits indices `0..n-1` strictly in order with no skips and no
repeats — for each index it sets the position to `startTime`, requests play,
attaches the observer, and after the end condition fires pauses and detaches
before advancing — and stops the recorder exactly once, as the final
action. -/
theorem sequencer_visits_in_order (p : Nat → Bool) (events : List Segment)
    (sched : List (List ℚ × ℚ)) (s : Surface)
    (_hne : events ≠ [])
    (_hsorted : events.Pairwise fun a b => a.startTime ≤ b.startTime)
    (hfair : List.Forall₂ fairSeg events sched) :
    (playNextClip p events 0 s (schedTimes sched)).trace = expTrace p 0 events
    ∧ (playNextClip p events 0 s (schedTimes sched)).recorderStopped = true
    ∧ attachIdxs (playNextClip p events 0 s (schedTimes sched)).trace
        = List.range events.length
    ∧ stopCount (playNextClip p events 0 s (schedTimes sched)).trace = 1
    ∧ (playNextClip p events 0 s (schedTimes sched)).trace.getLast?
        = some Act.stopRec := by
  obtain ⟨ht, hs⟩ := playNextClip_fair p hfair 0 s
  refine ⟨ht, hs, ?_, ?_, ?_⟩
  · rw [ht, attachIdxs_expTrace]
    exact (List.range_eq_range' events.length).symm
  · rw [ht]; exact stopCount_expTrace p events 0
  · rw [ht]; exact getLast?_expTrace p events 0

theorem fairW : List.Forall₂ fairSeg segsW schedW := by
  unfold segsW schedW
  refine List.Forall₂.cons ⟨?_, by norm_num⟩
    (List.Forall₂.cons ⟨?_, by norm_num⟩ List.Forall₂.nil)
  · intro t ht
    simp only [List.mem_singleton] at ht
    subst ht; norm_num
  · intro t ht
    simp only [List.mem_singleton] at ht
    subst ht; norm_num

theorem sequencer_visits_in_order_witness :
    attachIdxs (playNextClip (fun _ => true) segsW 0 ⟨0, false, true⟩
        (schedTimes schedW)).trace = List.range segsW.length
    ∧ stopCount (playNextClip (fun _ => true) segsW 0 ⟨0, false, true⟩
        (schedTimes schedW)).trace = 1
    ∧ (playNextClip (fun _ => true) segsW 0 ⟨0, false, true⟩
        (schedTimes schedW)).recorderStopped = true := by
  have h := sequencer_visits_in_order (fun _ => true) segsW schedW ⟨0, false, true⟩
    (by decide) (by decide) fairW
  exact ⟨h.2.2.1, h.2.2.2.1, h.2.1⟩

/-! ## Claim C3 -/

/-- C3 counterexample: with `video.play()` rejecting on every segment, the
export is NOT aborted — `playNextClip` catches the rejection, logs it, keeps
sequencing both segments, and the export completes normally (the `catch`
restoration path never runs). -/
theorem play_failure_continues_cex :
    (handleExportVideo env_playFail m_twoSegs).outcome = ExportOutcome.completed
    ∧ (handleExportVideo env_playFail m_twoSegs).outcome ≠ ExportOutcome.failedCaught
    ∧ Act.playFailed ∈ (handleExportVideo env_playFail m_twoSegs).trace
    ∧ attachIdxs (handleExportVideo env_playFail m_twoSegs).trace = [0, 1]
    ∧ (handleExportVideo env_playFail m_twoSegs).recorderStopped = true := by
  decide

/-- C3 amended: a rejected playback resume is swallowed inside
`playNextClip` (caught and logged); the sequencer still visits every
segment and still stops the recorder — the export is not aborted and no
failure is signalled. -/
theorem play_failure_does_not_abort (p : Nat → Bool) (events : List Segment)
    (sched : List (List ℚ × ℚ)) (s : Surface) (j : Nat)
    (hfair : List.Forall₂ fairSeg events sched)
    (hj : j < events.length) (hfail : p j = false) :
    (playNextClip p events 0 s (schedTimes sched)).recorderStopped = true
    ∧ attachIdxs (playNextClip p events 0 s (schedTimes sched)).trace
        = List.range events.length
    ∧ Act.playFailed ∈ (playNextClip p events 0 s (schedTimes sched)).trace := by
  obtain ⟨ht, hs⟩ := playNextClip_fair p hfair 0 s
  refine ⟨hs, ?_, ?_⟩
  · rw [ht, attachIdxs_expTrace]
    exact (List.range_eq_range' events.length).symm
  · rw [ht]
    exact playFailed_mem_expTrace p events 0 j (by simpa using hj)
      (by simpa using hfail)

theorem play_failure_does_not_abort_witness :
    (playNextClip (fun _ => false) segsW 0 ⟨0, false, true⟩
        (schedTimes schedW)).recorderStopped = true
    ∧ Act.playFailed ∈ (playNextClip (fun _ => false) segsW 0 ⟨0, false, true⟩
        (schedTimes schedW)).trace := by
  have h := play_failure_does_not_abort (fun _ => false) segsW schedW
    ⟨0, false, true⟩ 0 fairW (by decide) rfl
  exact ⟨h.1, h.2.2⟩

/-! ## Claim C6 -/

/-- C6 counterexample: segment `[0, 5]` on a 4-second video.  The
`timeupdate` observations are capped at the media duration 4; the last one
fires at the natural end of media.  `checkTime` only tests
`currentTime >= endTime`, so the sequencer never advances: the observer
stays attached, nothing is paused, and the recorder is never stopped. -/
theorem sequencer_stall_cex :
    playNextClip (fun _ => true) [⟨0, 5⟩] 0 ⟨0, false, true⟩ [1, 2, 3, 4] =
      ⟨⟨4, false, false⟩, [Act.setTime 0, Act.playResume, Act.attach 0], false⟩ := by
  decide

/-- C6 amended: if a segment's `endTime` exceeds the media duration, every
`timeupdate` observation (all capped at the duration, including the one
fired at natural end of media) fails the `currentTime >= endTime` test, so
the sequencer stalls at that segment: no advancement, no pause, and the
recorder is never stopped.  The code has no end-of-media fallback. -/
theorem sequencer_stalls_beyond_duration (p : Nat → Bool) (evt : Segment)
    (rest : List Segment) (i : Nat) (s : Surface) (ts : List ℚ) (D : ℚ)
    (hts : ∀ t ∈ ts, t ≤ D) (hD : D < evt.endTime) :
    (playNextClip p (evt :: rest) i s ts).recorderStopped = false
    ∧ attachIdxs (playNextClip p (evt :: rest) i s ts).trace = [i]
    ∧ Act.pauseSurface ∉ (playNextClip p (evt :: rest) i s ts).trace
    ∧ Act.stopRec ∉ (playNextClip p (evt :: rest) i s ts).trace := by
  have hno : ∀ t ∈ ts, ¬ evt.endTime ≤ t := fun t ht hle =>
    absurd (hle.trans (hts t ht)) (not_le.mpr hD)
  obtain ⟨s3, hw⟩ := waitCross_stall evt.endTime ts _ hno
  simp only [playNextClip]
  rw [hw]
  refine ⟨rfl, ?_, ?_, ?_⟩
  · cases hp : p i <;> simp [attachIdxs, playStep_snd, hp]
  · cases hp : p i <;> simp [playStep_snd, hp]
  · cases hp : p i <;> simp [playStep_snd, hp]

theorem sequencer_stalls_beyond_duration_witness :
    (playNextClip (fun _ => true) [⟨0, 5⟩] 0 ⟨0, false, true⟩
        [1, 2, 3, 4]).recorderStopped = false
    ∧ Act.stopRec ∉ (playNextClip (fun _ => true) [⟨0, 5⟩] 0 ⟨0, false, true⟩
        [1, 2, 3, 4]).trace := by
  have h := sequencer_stalls_beyond_duration (fun _ => true) ⟨0, 5⟩ [] 0
    ⟨0, false, true⟩ [1, 2, 3, 4] 4 (by decide) (by norm_num)
  exact ⟨h.1, h.2.2.2⟩

/-! ## Claim C7 -/

/-- C7: invoked on an empty segment list, the sequencer stops the recorder
immediately and performs no other action: the playback surface is returned
unchanged and the trace holds nothing but the single `stopRec`. -/
theorem sequencer_empty_immediate (p : Nat → Bool) (i : Nat) (s : Surface)
    (ts : List ℚ) :
    playNextClip p [] i s ts = ⟨s, [Act.stopRec], true⟩ := rfl

/-! ## Claim C2 -/

/-- C2 counterexample: on the failure path the `catch` block restores
`currentTime` and `muted` but never calls `video.pause()` and never stops
the recorder or stream.  Here the attempt fails (capture unavailable) while
the video is playing: after the attempt the surface is still not paused,
refuting "the surface is paused on exit" for failure outcomes. -/
theorem export_failure_not_paused_cex :
    (handleExportVideo env_captureFail m_playing).outcome
      = ExportOutcome.failedCaught
    ∧ (handleExportVideo env_captureFail m_playing).state.surface.paused = false
    ∧ m_playing.surface.paused = false := by
  decide

/-- C2 amended: for every export attempt that concludes (success or caught
failure), `(currentTime, muted)` after the attempt equals the snapshot taken
before it; the surface is paused and the recorder stopped on the success
path, whereas a caught failure leaves the pause state untouched and leaves
an already-started recorder open (the `catch` block neither pauses nor stops
anything). -/
theorem export_restores_surface (env : ExportEnv) (m : AppModel)
    (hdone : (handleExportVideo env m).outcome ≠ ExportOutcome.stalled) :
    (handleExportVideo env m).state.surface.time = m.surface.time
    ∧ (handleExportVideo env m).state.surface.muted = m.surface.muted
    ∧ ((handleExportVideo env m).outcome = ExportOutcome.completed →
        (handleExportVideo env m).state.surface.paused = true
        ∧ (handleExportVideo env m).recorderStopped = true)
    ∧ ((handleExportVideo env m).outcome = ExportOutcome.failedCaught →
        (handleExportVideo env m).state.surface.paused = m.surface.paused
        ∧ (handleExportVideo env m).recorderStopped = false) := by
  unfold handleExportVideo at hdone ⊢
  split_ifs at hdone ⊢ <;> simp only [] at hdone ⊢ <;>
    first
      | (split <;> simp_all)
      | simp_all

theorem export_restores_surface_witness :
    (handleExportVideo env_captureFail m_playing).state.surface.time
      = m_playing.surface.time
    ∧ (handleExportVideo env_captureFail m_playing).state.surface.muted
      = m_playing.surface.muted := by
  have h := export_restores_surface env_captureFail m_playing (by decide)
  exact ⟨h.1, h.2.1⟩

/-! ## Claim C4 -/

/-- C4: if any export precondition is missing — no loaded video, an empty
segment list, or no generated commentary audio buffer — the call rejects
immediately with the precondition alert, changes no state (in particular
`isExporting` keeps its value), and constructs no capture-and-mix
session. -/
theorem export_precondition_rejected (env : ExportEnv) (m : AppModel)
    (h : m.hasVideo = false ∨ m.events = [] ∨ m.hasAudioBuffer = false) :
    handleExportVideo env m =
      { state := m, outcome := ExportOutcome.preconditionRejected,
        streamCaptured := false, sessionConstructed := false,
        recorderStarted := false, recorderStopped := false,
        downloaded := false, trace := [] } := by
  unfold handleExportVideo
  rcases h with h | h | h <;> simp [h]

theorem export_precondition_rejected_witness :
    handleExportVideo env_allOk m_noEvents =
      { state := m_noEvents, outcome := ExportOutcome.preconditionRejected,
        streamCaptured := false, sessionConstructed := false,
        recorderStarted := false, recorderStopped := false,
        downloaded := false, trace := [] } :=
  export_precondition_rejected env_allOk m_noEvents (Or.inr (Or.inl rfl))

/-! ## Claim C5 -/

theorem sessionInv_step (s : SysState) (e : SysEvt) (h : sessionInv s) :
    sessionInv (sysStep s e) := by
  unfold sessionInv sysStep at *
  cases e with
  | clickStart pre started =>
    cases pre <;> cases started <;> split_ifs <;> (simp_all; try omega)
  | finishOk =>
    split_ifs <;> (simp_all; try omega)
  | finishCaught =>
    cases hc : s.curStarted <;> split_ifs <;> (simp_all; try omega)

theorem sessionInv_runSys (evts : List SysEvt) :
    ∀ s : SysState, sessionInv s → sessionInv (runSys s evts) := by
  induction evts with
  | nil => intro s h; exact h
  | cons e evts ih =>
    intro s h
    exact ih (sysStep s e) (sessionInv_step s e h)

/-- C5 counterexample: two capture-and-mix sessions live at once.  An export
attempt that fails after `mediaRecorder.start()` (here: `audioSource.start`
throws) reaches `catch`, which clears `isExporting` but stops neither the
recorder nor the stream (`recorderStarted = true`, `recorderStopped =
false`).  The button is thereby re-enabled, and a second invocation
constructs and starts a second recorder while the first is still recording;
in the interleaved system the same two clicks around a caught conclusion
reach a state with two live recorders. -/
theorem concurrent_sessions_cex :
    (handleExportVideo env_audioStartFail m_playing).outcome
        = ExportOutcome.failedCaught
    ∧ (handleExportVideo env_audioStartFail m_playing).recorderStarted = true
    ∧ (handleExportVideo env_audioStartFail m_playing).recorderStopped = false
    ∧ exportButtonDisabled (handleExportVideo env_audioStartFail m_playing).state
        = false
    ∧ (handleExportVideo env_allOk
        (handleExportVideo env_audioStartFail m_playing).state).sessionConstructed
        = true
    ∧ (handleExportVideo env_allOk
        (handleExportVideo env_audioStartFail m_playing).state).recorderStarted
        = true
    ∧ (runSys (sysInit true) [SysEvt.clickStart true true, SysEvt.finishCaught,
        SysEvt.clickStart true true]).liveRecorders = 2 := by
  decide

/-- C5 amended: export re-entry is refused while the exporting flag is set —
a click during `Exporting` hits the `disabled` guard and is a no-op, so at
most one export attempt is ever in flight.  But session uniqueness is only
conditional: the live recorders are exactly the in-flight started attempt
plus the recorders leaked by caught post-start failures (the `catch` stops
nothing), so only runs in which no started attempt ends in `catch` have at
most one live session. -/
theorem export_mutual_exclusion :
    (∀ (env : ExportEnv) (m : AppModel), m.isExporting = true →
      clickExport env m = notInvokedResult m)
    ∧ (∀ (hasBuf : Bool) (evts : List SysEvt),
      sessionInv (runSys (sysInit hasBuf) evts))
    ∧ (∀ (hasBuf : Bool) (evts : List SysEvt),
      (runSys (sysInit hasBuf) evts).leaked = 0 →
      (runSys (sysInit hasBuf) evts).liveRecorders ≤ 1) := by
  refine ⟨?_, ?_, ?_⟩
  · intro env m h
    unfold clickExport exportButtonDisabled
    simp [h]
  · intro hasBuf evts
    exact sessionInv_runSys evts (sysInit hasBuf) (by simp [sessionInv, sysInit])
  · intro hasBuf evts hleak
    have hinv : sessionInv (runSys (sysInit hasBuf) evts) :=
      sessionInv_runSys evts (sysInit hasBuf) (by simp [sessionInv, sysInit])
    unfold sessionInv at hinv
    split at hinv <;> omega

/-! ## Claim C8 -/

/-- C8 counterexample: `generateAudioCommentary` catches a thrown TTS
failure and returns `undefined`, exactly like the valid no-inline-data
outcome — the two outcomes ARE conflated.  The caller therefore shows the
soft "cannot generate audio" notification for a hard API failure; its hard
error path is not reached. -/
theorem tts_error_conflated_cex :
    generateAudioCommentary TtsApiOutcome.apiError
      = generateAudioCommentary TtsApiOutcome.noData
    ∧ handleGenerateCommentary true true TtsApiOutcome.apiError true
      = CommentaryOutcome.softNoAudio
    ∧ handleGenerateCommentary true true TtsApiOutcome.apiError true
      ≠ CommentaryOutcome.hardError := by
  decide

/-- C8 amended: the speech-synthesis boundary returns bytes or an absent
result, and absence yields the soft notification — but a hard failure
thrown inside the TTS call is caught at the boundary and returned as
absent, conflated with the valid absent outcome, so the TTS failure itself
never reaches the hard path.  The caller's hard-error message is produced
only by failures outside the TTS call: script generation, or the
decode/AudioContext/playback chain after a present TTS result (e.g.
`atob` on invalid base64, or `ctx.createBuffer` on an empty payload). -/
theorem tts_boundary_amended (tts : TtsApiOutcome) (decodeOk : Bool) :
    (∀ b : String, tts = TtsApiOutcome.success b →
      handleGenerateCommentary true true tts decodeOk
        = (if decodeOk then CommentaryOutcome.played
           else CommentaryOutcome.hardError))
    ∧ (generateAudioCommentary tts = none →
      handleGenerateCommentary true true tts decodeOk
        = CommentaryOutcome.softNoAudio)
    ∧ (tts = TtsApiOutcome.apiError ∨ tts = TtsApiOutcome.noData →
      handleGenerateCommentary true true tts decodeOk
        ≠ CommentaryOutcome.hardError)
    ∧ handleGenerateCommentary true false tts decodeOk
        = CommentaryOutcome.hardError := by
  cases tts <;> cases decodeOk <;>
    simp [handleGenerateCommentary, generateAudioCommentary]

theorem tts_boundary_amended_witness :
    handleGenerateCommentary true true TtsApiOutcome.noData true
      = CommentaryOutcome.softNoAudio
    ∧ handleGenerateCommentary true true (TtsApiOutcome.success "UklGRg") false
      = CommentaryOutcome.hardError
    ∧ handleGenerateCommentary true false TtsApiOutcome.noData true
      = CommentaryOutcome.hardError := by
  have h1 := tts_boundary_amended TtsApiOutcome.noData true
  have h2 := tts_boundary_amended (TtsApiOutcome.success "UklGRg") false
  exact ⟨h1.2.1 rfl, by simpa using h2.1 "UklGRg" rfl, h1.2.2.2⟩

/-! ## Claim C9 -/

theorem filter_orderedInsert_ne (t : ℚ) (a : RawEvent)
    (h : a.startTime ≠ t) :
    ∀ l : List RawEvent,
      (List.orderedInsert evLe a l).filter (fun e => decide (e.startTime = t))
        = l.filter (fun e => decide (e.startTime = t))
  | [] => by simp [List.orderedInsert, h]
  | b :: l => by
    simp only [List.orderedInsert]
    split
    · simp [h]
    · simp only [List.filter_cons, filter_orderedInsert_ne t a h l]

theorem filter_orderedInsert_eq (t : ℚ) (a : RawEvent)
    (h : a.startTime = t) :
    ∀ l : List RawEvent,
      (List.orderedInsert evLe a l).filter (fun e => decide (e.startTime = t))
        = a :: l.filter (fun e => decide (e.startTime = t))
  | [] => by simp [List.orderedInsert, h]
  | b :: l => by
    simp only [List.orderedInsert]
    split
    · simp [h]
    · rename_i hab
      have hb : ¬ b.startTime = t := by
        unfold evLe at hab
        intro hbt
        exact hab (le_of_eq (by rw [hbt, h]))
      simp only [List.filter_cons, filter_orderedInsert_eq t a h l, hb]
      simp

theorem filter_insertionSort (t : ℚ) :
    ∀ l : List RawEvent,
      (List.insertionSort evLe l).filter (fun e => decide (e.startTime = t))
        = l.filter (fun e => decide (e.startTime = t))
  | [] => rfl
  | a :: l => by
    simp only [List.insertionSort]
    by_cases h : a.startTime = t
    · rw [filter_orderedInsert_eq t a h, filter_insertionSort t l]
      simp [List.filter_cons, h]
    · rw [filter_orderedInsert_ne t a h, filter_insertionSort t l]
      simp [List.filter_cons, h]

theorem handleAnalyzeEvents_raw (detected : List RawEvent) :
    (handleAnalyzeEvents detected).map (fun e => e.toRawEvent)
      = List.insertionSort evLe detected := by
  unfold handleAnalyzeEvents
  rw [List.map_map]
  exact List.map_fst_zip _ _ (by simp)

/-- C9: for every list of detected events, the stored sequence is sorted
ascending by `startTime`; ties keep original detection order (for every
key, filtering by that `startTime` returns the same subsequence as in the
input); the stored events are exactly the detected ones (a permutation);
and ids are the sequential strings `evt-0, evt-1, ...` in sorted order. -/
theorem analyze_sorted_stable_ids (detected : List RawEvent) :
    (handleAnalyzeEvents detected).Pairwise
        (fun a b => a.startTime ≤ b.startTime)
    ∧ (∀ t : ℚ,
        ((handleAnalyzeEvents detected).map (fun e => e.toRawEvent)).filter
            (fun e => decide (e.startTime = t))
          = detected.filter (fun e => decide (e.startTime = t)))
    ∧ ((handleAnalyzeEvents detected).map (fun e => e.toRawEvent)).Perm
        detected
    ∧ (handleAnalyzeEvents detected).map (fun e => e.id)
        = (List.range detected.length).map (fun i => "evt-" ++ toString i) := by
  refine ⟨?_, ?_, ?_, ?_⟩
  · have hs : ((handleAnalyzeEvents detected).map
        (fun e => e.toRawEvent)).Pairwise evLe := by
      rw [handleAnalyzeEvents_raw]
      exact List.sorted_insertionSort evLe detected
    rw [List.pairwise_map] at hs
    exact hs
  · intro t
    rw [handleAnalyzeEvents_raw]
    exact filter_insertionSort t detected
  · rw [handleAnalyzeEvents_raw]
    exact List.perm_insertionSort evLe detected
  · unfold handleAnalyzeEvents
    rw [List.map_map]
    have hz : (List.map
        ((fun e => e.id) ∘ fun p : RawEvent × Nat =>
          ({ toRawEvent := p.1, id := "evt-" ++ toString p.2 } : VideoEvent))
        ((List.insertionSort evLe detected).zip
          (List.range (List.insertionSort evLe detected).length)))
        = List.map ((fun i => "evt-" ++ toString i) ∘ Prod.snd)
          ((List.insertionSort evLe detected).zip
            (List.range (List.insertionSort evLe detected).length)) := rfl
    rw [hz, ← List.map_map, List.map_snd_zip _ _ (by simp),
      List.length_insertionSort]

/-! ## Claim C10 -/

theorem export_mutual_exclusion_witness :
    clickExport env_allOk
        { hasVideo := true, events := [⟨0, 2⟩], hasAudioBuffer := true,
          hasAudioCtx := true, isExporting := true,
          surface := { time := 0, muted := false, paused := true } }
      = notInvokedResult
        { hasVideo := true, events := [⟨0, 2⟩], hasAudioBuffer := true,
          hasAudioCtx := true, isExporting := true,
          surface := { time := 0, muted := false, paused := true } }
    ∧ (runSys (sysInit true)
        [SysEvt.clickStart true true, SysEvt.finishOk]).liveRecorders ≤ 1 := by
  exact ⟨export_mutual_exclusion.1 env_allOk _ rfl,
    export_mutual_exclusion.2.2 true _ (by decide)⟩

end HoopsAI
